import Mathlib

/-!
Verification development for the rescam repository.

We give a shallow embedding of the Pub/Sub webhook receiver and the Gmail
notification pipeline (`src/api/webhooks.js`, present as
`src/unnamed/part_003`), of the dashboard inbox reducer
(`src/app/src/components/Inbox.jsx`) and of the classification colour map
(`src/app/src/components/EmailItem.jsx`).

External services (the Gmail API, the classifier model, object storage) are
modelled as oracles supplied in a `PipelineEnv`; the fallible ones return
`Option`, with `none` standing for a thrown exception.  The in-process
stores (token store, watch-state cursors, result store) are modelled as a
`Store` record threaded through the functions.  Execution is recorded as a
list of observable events (`Ev`) in the order the single-threaded runtime
performs them, with the HTTP response emitted at its position in the code.

JavaScript truthiness of strings (the `||` defaulting idiom and `?.data`
guards of the source) is modelled by `jsStr`, which maps the empty string
to `none`.
-/

/-- JS truthiness for an optional string: `undefined` and `""` are falsy,
mirroring the `x || default` and `o?.data` idioms of the source. -/
def jsStr (v : Option String) : Option String :=
  match v with
  | some s => if s = "" then none else some s
  | none => none

/-- Association-list lookup, used to model the in-memory token and cursor
maps of the token store and the per-key result objects in storage. -/
def alookup {κ α : Type} [DecidableEq κ] : List (κ × α) → κ → Option α
  | [], _ => none
  | (k, v) :: rest, key => if k = key then some v else alookup rest key

/-- Association-list upsert: overwrites the binding when the key is present,
appends it otherwise. -/
def aupsert {κ α : Type} [DecidableEq κ] : List (κ × α) → κ → α → List (κ × α)
  | [], key, v => [(key, v)]
  | (k, w) :: rest, key, v =>
      if k = key then (key, v) :: rest else (k, w) :: aupsert rest key v

/-! ## Gmail message objects (input of `parseGmailMessage`) -/

/-- One entry of `payload.headers`. -/
structure Header where
  name : String
  value : String
deriving DecidableEq

/-- A `body` object of a Gmail payload or part; `data` is the base64 text. -/
structure MsgBody where
  data : Option String
deriving DecidableEq

/-- One entry of `payload.parts`. -/
structure MsgPart where
  mimeType : String
  body : Option MsgBody
deriving DecidableEq

/-- The `payload` object of a Gmail message. -/
structure MsgPayload where
  headers : Option (List Header)
  parts : Option (List MsgPart)
  body : Option MsgBody
deriving DecidableEq

/-- A Gmail message object as consumed by the pipeline. -/
structure GmailMessage where
  payload : Option MsgPayload
  threadId : Option String
  internalDate : Option String
  snippet : Option String
deriving DecidableEq

/-- `headers.find(h => h.name === n)?.value`. -/
def findHeader (headers : List Header) (n : String) : Option String :=
  (headers.find? (fun h => h.name = n)).map Header.value

/-- The body-extraction loop of `parseGmailMessage`: first part whose
`mimeType` is `text/plain` and whose `body?.data` is truthy wins; `dec` is
the base64-to-utf8 decoder (`Buffer.from(_, "base64").toString("utf-8")`). -/
def firstTextPlain (dec : String → String) : List MsgPart → String
  | [] => ""
  | p :: rest =>
      match jsStr (p.body.bind MsgBody.data) with
      | some d => if p.mimeType = "text/plain" then dec d else firstTextPlain dec rest
      | none => firstTextPlain dec rest

/-- `parseGmailMessage` from the webhook module, translated statement by
statement; `dec` is the base64 decoder. -/
def parseGmailMessage (dec : String → String) (message : GmailMessage) : String :=
  let payload := message.payload.getD { headers := none, parts := none, body := none }
  let headers := payload.headers.getD []
  let subject := (jsStr (findHeader headers "Subject")).getD "No Subject"
  let sender := (jsStr (findHeader headers "From")).getD "Unknown"
  let date := (jsStr (findHeader headers "Date")).getD ""
  let body :=
    match payload.parts with
    | some parts => firstTextPlain dec parts
    | none =>
        match payload.body with
        | some b =>
            match jsStr b.data with
            | some d => dec d
            | none => ""
        | none => ""
  "From: " ++ sender ++ "\nSubject: " ++ subject ++ "\nDate: " ++ date ++ "\n\n" ++ body

/-- Sender, subject and date as extracted by `extractGmailMetadata`. -/
structure GmailMetadata where
  sender : String
  subject : String
  date : String
deriving DecidableEq

/-- `extractGmailMetadata` from the webhook module. -/
def extractGmailMetadata (message : GmailMessage) : GmailMetadata :=
  let headers := (message.payload.bind MsgPayload.headers).getD []
  { sender := (jsStr (findHeader headers "From")).getD "Unknown"
    subject := (jsStr (findHeader headers "Subject")).getD "No Subject"
    date := (jsStr (findHeader headers "Date")).getD "" }

/-! ## Claim-side formulations of `parseGmailMessage` (for C10) -/

/-- The output of `parseGmailMessage` exactly as the claim words it: header
defaults apply only when the header is absent, and the body is the decoded
first `text/plain` part when the payload has parts, else the decoded
top-level body, else the empty string. -/
def claimedParseGmailMessage (dec : String → String) (m : GmailMessage) : String :=
  let headers := (m.payload.bind MsgPayload.headers).getD []
  let sender := (findHeader headers "From").getD "Unknown"
  let subject := (findHeader headers "Subject").getD "No Subject"
  let date := (findHeader headers "Date").getD ""
  let body :=
    match m.payload.bind MsgPayload.parts with
    | some parts =>
        match parts.find? (fun p => p.mimeType = "text/plain") with
        | some p => dec ((p.body.bind MsgBody.data).getD "")
        | none => ""
    | none =>
        match m.payload.bind (fun pl => pl.body.bind MsgBody.data) with
        | some d => dec d
        | none => ""
  "From: " ++ sender ++ "\nSubject: " ++ subject ++ "\nDate: " ++ date ++ "\n\n" ++ body

/-- The amended characterisation of `parseGmailMessage`: header defaults
apply when the header is absent or has an empty value, and the body is the
decoded data of the first part with mime type `text/plain` and nonempty
data when the payload has a parts array, else the decoded top-level body
data when nonempty, else the empty string. -/
def specParseGmailMessage (dec : String → String) (m : GmailMessage) : String :=
  let headers := (m.payload.bind MsgPayload.headers).getD []
  let hval := fun (n : String) (d : String) =>
    match findHeader headers n with
    | some v => if v = "" then d else v
    | none => d
  let body :=
    match m.payload.bind MsgPayload.parts with
    | some parts =>
        match parts.find?
            (fun p => p.mimeType = "text/plain" ∧ jsStr (p.body.bind MsgBody.data) ≠ none) with
        | some p => dec ((jsStr (p.body.bind MsgBody.data)).getD "")
        | none => ""
    | none =>
        match m.payload.bind (fun pl => pl.body.bind (fun b => jsStr b.data)) with
        | some d => dec d
        | none => ""
  "From: " ++ hval "From" "Unknown" ++ "\nSubject: " ++ hval "Subject" "No Subject" ++
    "\nDate: " ++ hval "Date" "" ++ "\n\n" ++ body

/-! ## Classification records (Classifier Client, spec-modelled) -/

/-- A classification record as consumed by the dashboard
(`classification.result`, `confidence`, `primary_reason`). -/
structure Classification where
  result : String
  confidence : Rat
  primary_reason : String
deriving DecidableEq

/-- The fixed category set of the spec: benign, spam, scam, suspicious. -/
def categorySet : List String := ["benign", "spam", "scam", "suspicious"]

/-- Modelled from the spec: the Classifier Client (`modelService.js`) is not
under `src/`.  Per the spec it parses the model response against the
required JSON schema whose category field is the fixed enumerated set, so a
response whose category is outside the set fails the parse. -/
def validateClassification (c : Option Classification) : Option Classification :=
  match c with
  | some c => if c.result ∈ categorySet then some c else none
  | none => none

/-- Modelled from the spec: the degraded default record used when parsing
still fails after the single retry — suspicious with low confidence. -/
def fallbackClassification : Classification :=
  { result := "suspicious", confidence := 1 / 10
    primary_reason := "Model response could not be parsed" }

/-- Modelled from the spec: the parse-retry-fallback policy of the
Classifier Client.  `first` and `retry2` are the parse outcomes of the two
model responses; one reparse attempt, then the degraded default. -/
def resolveClassification (first retry2 : Option Classification) : Classification :=
  match validateClassification first with
  | some c => c
  | none =>
      match validateClassification retry2 with
      | some c => c
      | none => fallbackClassification

/-- The email record built by the pipeline and persisted to the result
store, with the fields the dashboard consumes. -/
structure EmailData where
  id : String
  threadId : String
  receivedAt : String
  sender : String
  subject : String
  snippet : String
  body : String
  classification : Classification
  processedAt : String
deriving DecidableEq

/-- The JS `toLowerCase()` call, character by character. -/
def jsToLower (s : String) : String := ⟨s.data.map Char.toLower⟩

/-- `getClassificationColor` from `EmailItem.jsx`. -/
def getClassificationColor (classification : Option Classification) : String :=
  match classification with
  | none => "#6c757d"
  | some c =>
      let result := jsToLower c.result
      if result = "benign" then "#28a745"
      else if result = "spam" then "#ffc107"
      else if result = "scam" then "#dc3545"
      else if result = "suspicious" then "#fd7e14"
      else "#6c757d"

/-! ## Stores and environment -/

/-- A token-store entry; `access_token` may be absent. -/
structure TokenData where
  access_token : Option String
deriving DecidableEq

/-- Modelled from the spec: the token store (`tokenStore.js`, not under
`src/`) keeps per-user credentials and the per-user last-processed history
cursor; the result store (`gcsService.js`, not under `src/`) keeps one
record per user and message identifier, overwritten on re-processing. -/
structure Store where
  tokens : List (String × TokenData)
  cursors : List (String × Nat)
  results : List ((String × String) × EmailData)
deriving DecidableEq

/-- Oracles for the external services the pipeline calls; `none` models a
thrown exception.  `decode` is the base64 decoder, `isoOf` the
`new Date(parseInt(d)).toISOString()` conversion (`none` when it throws),
`classifyOutcome` the network outcome of the classifier call carrying the
parse outcomes of the first and the retried model response, and `saveOk`
whether the storage write succeeds. -/
structure PipelineEnv where
  gmailClient : String → Option Unit
  listMessages : Nat → Option (List String)
  getMsg : String → Option GmailMessage
  classifyOutcome : String → Option (Option Classification × Option Classification)
  saveOk : String → Bool
  decode : String → String
  isoOf : Option String → Option String
  nowIso : String

/-- Observable events of one webhook delivery, in execution order. -/
inductive Ev where
  | respond (status : Nat)
  | log (tag : String)
  | tokenLookup (user : String)
  | gmailQuery (baseline : Nat)
  | fetchMsg (id : String)
  | classifyCall (id : String)
  | saveRecord (user : String) (id : String)
  | sse (user : String) (kind : String) (email : EmailData)
  | storeCursor (user : String) (historyId : Nat)
deriving DecidableEq

/-- The statuses sent on the HTTP response, in order. -/
def responsesOf (tr : List Ev) : List Nat :=
  tr.filterMap (fun e => match e with | Ev.respond s => some s | _ => none)

/-- The message identifiers for which a fetch was attempted, in order. -/
def fetchedIds (tr : List Ev) : List String :=
  tr.filterMap (fun e => match e with | Ev.fetchMsg i => some i | _ => none)

/-- The cursor writes performed, in order. -/
def cursorStores (tr : List Ev) : List (String × Nat) :=
  tr.filterMap (fun e => match e with | Ev.storeCursor u h => some (u, h) | _ => none)

/-- The history baselines queried against the mail source, in order. -/
def queriedBaselines (tr : List Ev) : List Nat :=
  tr.filterMap (fun e => match e with | Ev.gmailQuery b => some b | _ => none)

/-- The email records pushed to the dashboard stream, in order. -/
def sseEmails (tr : List Ev) : List EmailData :=
  tr.filterMap (fun e => match e with | Ev.sse _ _ ed => some ed | _ => none)

/-! ## The notification pipeline (`processGmailNotification`) -/

/-- The body of the per-message `try` block of `processGmailNotification`:
fetch, parse, classify, build the record, persist, notify.  Returns the
events of this message and the record added to the result store, `none`
when a failure was caught by the per-message handler. -/
def processOneMessage (env : PipelineEnv) (user : String) (msgId : String) :
    List Ev × Option EmailData :=
  match env.getMsg msgId with
  | none => ([Ev.fetchMsg msgId, Ev.log "message-error"], none)
  | some m =>
      let emailContent := parseGmailMessage env.decode m
      let meta := extractGmailMetadata m
      match env.classifyOutcome msgId with
      | none => ([Ev.fetchMsg msgId, Ev.classifyCall msgId, Ev.log "message-error"], none)
      | some (a, b) =>
          let c := resolveClassification a b
          match env.isoOf m.internalDate with
          | none => ([Ev.fetchMsg msgId, Ev.classifyCall msgId, Ev.log "message-error"], none)
          | some recvIso =>
              let emailData : EmailData :=
                { id := msgId
                  threadId := m.threadId.getD ""
                  receivedAt := recvIso
                  sender := meta.sender
                  subject := meta.subject
                  snippet := m.snippet.getD ""
                  body := emailContent
                  classification := c
                  processedAt := env.nowIso }
              if env.saveOk msgId then
                ([Ev.fetchMsg msgId, Ev.classifyCall msgId, Ev.saveRecord user msgId,
                  Ev.sse user "new_email" emailData], some emailData)
              else
                ([Ev.fetchMsg msgId, Ev.classifyCall msgId, Ev.log "message-error"], none)

/-- The `for (const messageId of messageIds)` loop: messages one at a time,
in source order, each under its own catch; the store accumulates the saved
records. -/
def processBatch (env : PipelineEnv) (user : String) (st : Store) :
    List String → List Ev × Store
  | [] => ([], st)
  | msgId :: rest =>
      let step := processOneMessage env user msgId
      let st1 :=
        match step.2 with
        | some ed => { st with results := aupsert st.results (user, msgId) ed }
        | none => st
      let tail := processBatch env user st1 rest
      (step.1 ++ tail.1, tail.2)

/-- `processGmailNotification`: create the Gmail client, read the stored
cursor (falling back to the notification historyId), list message ids since
the baseline, process the batch, then store the notification historyId as
the new cursor.  The outer catch turns any uncaught throw into a log. -/
def processGmailNotification (env : PipelineEnv) (st : Store) (user : String)
    (notifHid : Nat) (tok : String) : List Ev × Store :=
  match env.gmailClient tok with
  | none => ([Ev.log "notification-error"], st)
  | some _ =>
      let baseline := (alookup st.cursors user).getD notifHid
      match env.listMessages baseline with
      | none => ([Ev.gmailQuery baseline, Ev.log "notification-error"], st)
      | some [] =>
          ([Ev.gmailQuery baseline, Ev.storeCursor user notifHid],
            { st with cursors := aupsert st.cursors user notifHid })
      | some (msgId :: rest) =>
          let batch := processBatch env user st (msgId :: rest)
          (Ev.gmailQuery baseline :: (batch.1 ++ [Ev.storeCursor user notifHid]),
            { batch.2 with cursors := aupsert batch.2.cursors user notifHid })

/-! ## The webhook handler (`handlePubSubWebhook`) -/

/-- The decoded Pub/Sub payload: `{emailAddress, historyId}`. -/
structure NotifData where
  emailAddress : String
  historyId : Nat
deriving DecidableEq

/-- The `message` object of a Pub/Sub push envelope.  The `data` field is
modelled post-decoding: `none` is an absent (or falsy) `data` field, while
`some none` is a present field whose base64 content is not valid JSON, so
that `JSON.parse` throws. -/
structure PubSubMessage where
  data : Option (Option NotifData)
deriving DecidableEq

/-- A parsed webhook request body. -/
structure ReqBody where
  message : Option PubSubMessage
deriving DecidableEq

/-- `handlePubSubWebhook`, with the background task it spawns executed in
place after the acknowledgement: validate the envelope, decode, respond 200,
look up the stored token, and either drop with a log or run the pipeline. -/
def handlePubSubWebhook (env : PipelineEnv) (st : Store) (b : ReqBody) :
    List Ev × Store :=
  match b.message with
  | none => ([Ev.respond 400], st)
  | some msg =>
      match msg.data with
      | none => ([Ev.respond 400], st)
      | some none => ([Ev.log "webhook-error", Ev.respond 500], st)
      | some (some nd) =>
          let tokenData := alookup st.tokens nd.emailAddress
          match jsStr (tokenData.bind TokenData.access_token) with
          | none =>
              ([Ev.respond 200, Ev.tokenLookup nd.emailAddress, Ev.log "no-token"], st)
          | some tok =>
              let bg := processGmailNotification env st nd.emailAddress nd.historyId tok
              (Ev.respond 200 :: Ev.tokenLookup nd.emailAddress :: bg.1, bg.2)

/-- The receiver endpoint.  Modelled from the spec: the Express JSON
body-parsing middleware is not under `src/`; per the spec a non-JSON body
is a malformed payload answered with a client-error status (400) before the
handler runs, so the request body is `none` here. -/
def receiveWebhook (env : PipelineEnv) (st : Store) (body : Option ReqBody) :
    List Ev × Store :=
  match body with
  | none => ([Ev.respond 400], st)
  | some b => handlePubSubWebhook env st b

/-! ## The dashboard inbox reducer (`Inbox.jsx`) -/

/-- One parsed SSE message as dispatched by the `onmessage` handler:
a `connected` event, a `new_email` event (whose `email` field may be
absent), any other type, or a JSON parse failure caught by the handler. -/
inductive SseData where
  | connected
  | newEmail (email : Option EmailData)
  | other
  | malformed
deriving DecidableEq

/-- The `setEmails` reducer of `Inbox.jsx`: a `new_email` whose id is
already present leaves the list unchanged, otherwise the email is prepended;
every other message leaves the list unchanged. -/
def handleSseMessage (emails : List EmailData) (d : SseData) : List EmailData :=
  match d with
  | SseData.newEmail (some email) =>
      if emails.any (fun e => e.id = email.id) then emails else email :: emails
  | _ => emails

/-- The email list after a sequence of SSE messages, oldest first. -/
def applySseMessages (emails : List EmailData) (ds : List SseData) : List EmailData :=
  ds.foldl handleSseMessage emails

/-! ## Sample objects used by the witnesses -/

/-- A sample valid classification record. -/
def sampleClassification : Classification :=
  { result := "scam", confidence := 9 / 10, primary_reason := "urgency language" }

/-- A sample Gmail message. -/
def sampleMsg : GmailMessage :=
  { payload := some { headers := some [⟨"From", "alice@example.com"⟩, ⟨"Subject", "hello"⟩]
                      parts := none
                      body := some { data := some "aGk=" } }
    threadId := some "t1"
    internalDate := some "1700000000000"
    snippet := some "hi" }

/-- A sample environment: two new messages since cursor 3, of which the
first fails to fetch and the second goes through the whole pipeline. -/
def sampleEnv : PipelineEnv :=
  { gmailClient := fun _ => some ()
    listMessages := fun b => if b = 3 then some ["m1", "m2"] else some []
    getMsg := fun i => if i = "m1" then none else some sampleMsg
    classifyOutcome := fun _ => some (some sampleClassification, none)
    saveOk := fun _ => true
    decode := fun s => s
    isoOf := fun d => d
    nowIso := "2026-01-01T00:00:00Z" }

/-- A sample store holding a token and cursor 3 for one user. -/
def sampleStore : Store :=
  { tokens := [("user@example.com", ⟨some "tok123"⟩)]
    cursors := [("user@example.com", 3)]
    results := [] }

/-- A store with no tokens and no cursors. -/
def emptyStore : Store := { tokens := [], cursors := [], results := [] }

/-- A sample record as pushed to the dashboard. -/
def sampleEmail : EmailData :=
  { id := "m2", threadId := "t1", receivedAt := "1700000000000"
    sender := "alice@example.com", subject := "hello", snippet := "hi"
    body := "From: alice@example.com\nSubject: hello\nDate: \n\naGk="
    classification := sampleClassification, processedAt := "2026-01-01T00:00:00Z" }

/-- A message whose Subject header is present with an empty value. -/
def emptySubjectMsg : GmailMessage :=
  { payload := some { headers := some [⟨"Subject", ""⟩], parts := none, body := none }
    threadId := none
    internalDate := none
    snippet := none }

/-- A record is good when its classification category is in the fixed set. -/
def goodRecord (ed : EmailData) : Prop := ed.classification.result ∈ categorySet

/-- The record `sampleEnv` produces for message m2. -/
def pipelineSampleRecord : EmailData :=
  { id := "m2", threadId := "t1", receivedAt := "1700000000000"
    sender := "alice@example.com", subject := "hello", snippet := "hi"
    body := "From: alice@example.com\nSubject: hello\nDate: \n\naGk="
    classification := sampleClassification, processedAt := "2026-01-01T00:00:00Z" }

/-! ## Helper lemmas -/

theorem alookup_aupsert_self {κ α : Type} [DecidableEq κ]
    (l : List (κ × α)) (k : κ) (v : α) : alookup (aupsert l k v) k = some v := by
  induction l with
  | nil => simp [aupsert, alookup]
  | cons hd tl ih =>
      obtain ⟨k0, w⟩ := hd
      by_cases h : k0 = k <;> simp [aupsert, alookup, h, ih]

theorem aupsert_forall {κ α : Type} [DecidableEq κ] (P : α → Prop) :
    ∀ (l : List (κ × α)) (k : κ) (v : α), (∀ p ∈ l, P p.2) → P v →
      ∀ p ∈ aupsert l k v, P p.2 := by
  intro l
  induction l with
  | nil => intro k v _ hv p hp; simp [aupsert] at hp; subst hp; exact hv
  | cons hd tl ih =>
      intro k v hl hv p hp
      obtain ⟨k0, w⟩ := hd
      by_cases h : k0 = k
      · simp [aupsert, h] at hp
        rcases hp with hp | hp
        · subst hp; exact hv
        · exact hl p (List.mem_cons_of_mem _ hp)
      · simp [aupsert, h] at hp
        rcases hp with hp | hp
        · subst hp; exact hl (k0, w) (List.mem_cons_self _ _)
        · exact ih k v (fun q hq => hl q (List.mem_cons_of_mem _ hq)) hv p hp

theorem jsStr_getD (v : Option String) (d : String) :
    (jsStr v).getD d =
      match v with
      | some s => if s = "" then d else s
      | none => d := by
  cases v with
  | none => rfl
  | some s => by_cases h : s = "" <;> simp [jsStr, h]

theorem firstTextPlain_eq_find (dec : String → String) (parts : List MsgPart) :
    firstTextPlain dec parts =
      match parts.find?
          (fun p => p.mimeType = "text/plain" ∧ jsStr (p.body.bind MsgBody.data) ≠ none) with
      | some p => dec ((jsStr (p.body.bind MsgBody.data)).getD "")
      | none => "" := by
  induction parts with
  | nil => rfl
  | cons p rest ih =>
      cases hj : jsStr (p.body.bind MsgBody.data) with
      | none =>
          have hpred : ¬(p.mimeType = "text/plain" ∧ jsStr (p.body.bind MsgBody.data) ≠ none) := by
            simp [hj]
          simp [firstTextPlain, hj, List.find?_cons, hpred, ih]
      | some d =>
          by_cases hm : p.mimeType = "text/plain"
          · have hpred : p.mimeType = "text/plain" ∧ jsStr (p.body.bind MsgBody.data) ≠ none := by
              simp [hj, hm]
            simp [firstTextPlain, hj, hm, List.find?_cons, hpred]
          · have hpred : ¬(p.mimeType = "text/plain" ∧ jsStr (p.body.bind MsgBody.data) ≠ none) := by
              simp [hm]
            simp [firstTextPlain, hj, hm, List.find?_cons, hpred, ih]

/-- C10 counterexample: on a message whose Subject header is present with
an empty value, `parseGmailMessage` substitutes the default "No Subject"
(JS `||` treats the empty string as falsy), while the claim predicts the
header value itself, since the header is not absent. -/
theorem parseGmailMessage_claim_cex :
    parseGmailMessage (fun s => s) emptySubjectMsg =
        "From: Unknown\nSubject: No Subject\nDate: \n\n" ∧
    claimedParseGmailMessage (fun s => s) emptySubjectMsg =
        "From: Unknown\nSubject: \nDate: \n\n" ∧
    parseGmailMessage (fun s => s) emptySubjectMsg ≠
        claimedParseGmailMessage (fun s => s) emptySubjectMsg := by
  refine ⟨by decide, by decide, by decide⟩

/-- C10 (amended): `parseGmailMessage` is total and returns
"From: {sender}\nSubject: {subject}\nDate: {date}\n\n{body}", where the
defaults "Unknown", "No Subject" and "" apply when the corresponding header
is absent or has an empty value, and body is the decoded data of the first
part with mime type text/plain and nonempty data when the payload has a
parts array, else the decoded top-level body data when nonempty, else the
empty string. -/
theorem parseGmailMessage_matches_spec (dec : String → String) (m : GmailMessage) :
    parseGmailMessage dec m = specParseGmailMessage dec m := by
  obtain ⟨pl, tid, idate, sn⟩ := m
  cases pl with
  | none => rfl
  | some pl =>
      obtain ⟨hs, parts, pb⟩ := pl
      simp only [parseGmailMessage, specParseGmailMessage, Option.getD_some, Option.some_bind,
        jsStr_getD, firstTextPlain_eq_find]
      cases parts with
      | none =>
          cases pb with
          | none => rfl
          | some b =>
              cases hb : jsStr b.data with
              | none => simp [Option.some_bind, hb]
              | some d => simp [Option.some_bind, hb]
      | some l => rfl

/-- C6: for every sequence of SSE messages delivered to the Inbox
component, the displayed email list never contains two entries with the
same id, and a new_email event whose id is already present leaves the list
unchanged. -/
theorem inbox_no_duplicate_ids :
    (∀ ds : List SseData, ((applySseMessages [] ds).map EmailData.id).Nodup) ∧
    (∀ (prev : List EmailData) (e : EmailData), e.id ∈ prev.map EmailData.id →
      handleSseMessage prev (SseData.newEmail (some e)) = prev) := by
  have hstep : ∀ (prev : List EmailData) (d : SseData),
      ((prev.map EmailData.id).Nodup) → (((handleSseMessage prev d).map EmailData.id).Nodup) := by
    intro prev d h
    cases d with
    | connected => simpa [handleSseMessage]
    | other => simpa [handleSseMessage]
    | malformed => simpa [handleSseMessage]
    | newEmail e =>
        cases e with
        | none => simpa [handleSseMessage]
        | some email =>
            simp only [handleSseMessage]
            by_cases hmem : prev.any (fun e => e.id = email.id)
            · simpa [hmem]
            · have hninety : email.id ∉ prev.map EmailData.id := by
                simp only [List.any_eq_true, decide_eq_true_eq] at hmem
                simp only [List.mem_map]
                rintro ⟨x, hx, hxid⟩
                exact hmem ⟨x, hx, hxid⟩
              simp [hmem, List.nodup_cons, hninety, h]
  constructor
  · intro ds
    have hfold : ∀ (ds : List SseData) (prev : List EmailData),
        (prev.map EmailData.id).Nodup → ((applySseMessages prev ds).map EmailData.id).Nodup := by
      intro ds
      induction ds with
      | nil => intro prev h; simpa [applySseMessages]
      | cons d rest ih =>
          intro prev h
          have h1 := hstep prev d h
          simpa [applySseMessages, List.foldl_cons] using ih (handleSseMessage prev d) h1
    exact hfold ds [] (by simp)
  · intro prev e he
    have hany : prev.any (fun x => x.id = e.id) := by
      simp only [List.mem_map] at he
      obtain ⟨x, hx, hxid⟩ := he
      simp only [List.any_eq_true, decide_eq_true_eq]
      exact ⟨x, hx, hxid⟩
    simp [handleSseMessage, hany]

/-- C6 witness: a new_email event whose id is already displayed leaves the
concrete one-element list unchanged. -/
theorem inbox_no_duplicate_ids_witness :
    handleSseMessage [sampleEmail] (SseData.newEmail (some sampleEmail)) = [sampleEmail] :=
  inbox_no_duplicate_ids.2 [sampleEmail] sampleEmail (by simp)
theorem resolveClassification_mem (a b : Option Classification) :
    (resolveClassification a b).result ∈ categorySet := by
  have hfb : fallbackClassification.result ∈ categorySet := by
    simp [fallbackClassification, categorySet]
  have hval : ∀ c d, validateClassification c = some d → d.result ∈ categorySet := by
    intro c d h
    cases c with
    | none => simp [validateClassification] at h
    | some cc =>
        by_cases hm : cc.result ∈ categorySet
        · simp [validateClassification, hm] at h
          exact h ▸ hm
        · simp [validateClassification, hm] at h
  unfold resolveClassification
  cases hva : validateClassification a with
  | some c => exact hval a c hva
  | none =>
      cases hvb : validateClassification b with
      | some c => exact hval b c hvb
      | none => exact hfb

theorem processOneMessage_shape (env : PipelineEnv) (user i : String) :
    ((processOneMessage env user i).1 = [Ev.fetchMsg i, Ev.log "message-error"] ∧
      (processOneMessage env user i).2 = none) ∨
    ((processOneMessage env user i).1 =
        [Ev.fetchMsg i, Ev.classifyCall i, Ev.log "message-error"] ∧
      (processOneMessage env user i).2 = none) ∨
    (∃ ed, processOneMessage env user i =
        ([Ev.fetchMsg i, Ev.classifyCall i, Ev.saveRecord user i,
          Ev.sse user "new_email" ed], some ed) ∧ goodRecord ed) := by
  cases hg : env.getMsg i with
  | none => exact Or.inl (by constructor <;> simp [processOneMessage, hg])
  | some m =>
      cases hc : env.classifyOutcome i with
      | none => exact Or.inr (Or.inl (by constructor <;> simp [processOneMessage, hg, hc]))
      | some ab =>
          obtain ⟨a, b⟩ := ab
          cases hi : env.isoOf m.internalDate with
          | none =>
              exact Or.inr (Or.inl (by constructor <;> simp [processOneMessage, hg, hc, hi]))
          | some iso =>
              by_cases hs : env.saveOk i
              · refine Or.inr (Or.inr ⟨
                  { id := i
                    threadId := m.threadId.getD ""
                    receivedAt := iso
                    sender := (extractGmailMetadata m).sender
                    subject := (extractGmailMetadata m).subject
                    snippet := m.snippet.getD ""
                    body := parseGmailMessage env.decode m
                    classification := resolveClassification a b
                    processedAt := env.nowIso }, ?_, resolveClassification_mem a b⟩)
                simp [processOneMessage, hg, hc, hi, hs]
              · exact Or.inr (Or.inl
                  (by constructor <;> simp [processOneMessage, hg, hc, hi, hs]))

theorem processOneMessage_proj (env : PipelineEnv) (user i : String) :
    fetchedIds (processOneMessage env user i).1 = [i] ∧
    responsesOf (processOneMessage env user i).1 = [] ∧
    cursorStores (processOneMessage env user i).1 = [] ∧
    queriedBaselines (processOneMessage env user i).1 = [] := by
  rcases processOneMessage_shape env user i with ⟨htr, _⟩ | ⟨htr, _⟩ | ⟨ed, heq, _⟩
  · simp [htr, fetchedIds, responsesOf, cursorStores, queriedBaselines, List.filterMap_cons]
  · simp [htr, fetchedIds, responsesOf, cursorStores, queriedBaselines, List.filterMap_cons]
  · simp [heq, fetchedIds, responsesOf, cursorStores, queriedBaselines, List.filterMap_cons]

theorem processOneMessage_failure_log (env : PipelineEnv) (user i : String)
    (h : (processOneMessage env user i).2 = none) :
    Ev.log "message-error" ∈ (processOneMessage env user i).1 := by
  rcases processOneMessage_shape env user i with ⟨htr, _⟩ | ⟨htr, _⟩ | ⟨ed, heq, _⟩
  · simp [htr]
  · simp [htr]
  · rw [heq] at h; exact absurd h (by simp)

theorem sseEmails_processOneMessage_good (env : PipelineEnv) (user i : String) :
    ∀ ed ∈ sseEmails (processOneMessage env user i).1, goodRecord ed := by
  rcases processOneMessage_shape env user i with ⟨htr, _⟩ | ⟨htr, _⟩ | ⟨ed0, heq, hgood⟩
  · simp [htr, sseEmails, List.filterMap_cons]
  · simp [htr, sseEmails, List.filterMap_cons]
  · intro ed hed
    rw [heq] at hed
    simp [sseEmails, List.filterMap_cons] at hed
    exact hed ▸ hgood

theorem processBatch_trace (env : PipelineEnv) (user : String) :
    ∀ (ids : List String) (st : Store),
      (processBatch env user st ids).1 =
        ids.flatMap (fun i => (processOneMessage env user i).1) := by
  intro ids
  induction ids with
  | nil => intro st; simp [processBatch]
  | cons i rest ih => intro st; simp [processBatch, List.flatMap_cons, ih]

theorem fetchedIds_append (a b : List Ev) :
    fetchedIds (a ++ b) = fetchedIds a ++ fetchedIds b := by
  simp [fetchedIds]

theorem responsesOf_append (a b : List Ev) :
    responsesOf (a ++ b) = responsesOf a ++ responsesOf b := by
  simp [responsesOf]

theorem cursorStores_append (a b : List Ev) :
    cursorStores (a ++ b) = cursorStores a ++ cursorStores b := by
  simp [cursorStores]

theorem queriedBaselines_append (a b : List Ev) :
    queriedBaselines (a ++ b) = queriedBaselines a ++ queriedBaselines b := by
  simp [queriedBaselines]

theorem processBatch_proj (env : PipelineEnv) (user : String) :
    ∀ (ids : List String) (st : Store),
      fetchedIds (processBatch env user st ids).1 = ids ∧
      responsesOf (processBatch env user st ids).1 = [] ∧
      cursorStores (processBatch env user st ids).1 = [] ∧
      queriedBaselines (processBatch env user st ids).1 = [] := by
  intro ids
  induction ids with
  | nil =>
      intro st
      simp [processBatch, fetchedIds, responsesOf, cursorStores, queriedBaselines]
  | cons i rest ih =>
      intro st
      have hsplit : (processBatch env user st (i :: rest)).1 =
          (processOneMessage env user i).1 ++
            (processBatch env user (match (processOneMessage env user i).2 with
              | some ed => { st with results := aupsert st.results (user, i) ed }
              | none => st) rest).1 := rfl
      obtain ⟨f1, r1, c1, q1⟩ := processOneMessage_proj env user i
      obtain ⟨f2, r2, c2, q2⟩ := ih (match (processOneMessage env user i).2 with
        | some ed => { st with results := aupsert st.results (user, i) ed }
        | none => st)
      refine ⟨?_, ?_, ?_, ?_⟩
      · rw [hsplit, fetchedIds_append, f1, f2]; rfl
      · rw [hsplit, responsesOf_append, r1, r2]; rfl
      · rw [hsplit, cursorStores_append, c1, c2]; rfl
      · rw [hsplit, queriedBaselines_append, q1, q2]; rfl

theorem processBatch_storeInv (env : PipelineEnv) (user : String) :
    ∀ (ids : List String) (st : Store),
      (processBatch env user st ids).2.cursors = st.cursors ∧
      (processBatch env user st ids).2.tokens = st.tokens := by
  intro ids
  induction ids with
  | nil => intro st; simp [processBatch]
  | cons i rest ih =>
      intro st
      have hst : (processBatch env user st (i :: rest)).2 =
          (processBatch env user (match (processOneMessage env user i).2 with
            | some ed => { st with results := aupsert st.results (user, i) ed }
            | none => st) rest).2 := rfl
      rw [hst]
      cases h : (processOneMessage env user i).2 with
      | none => simpa [h] using ih st
      | some ed => simpa [h] using ih { st with results := aupsert st.results (user, i) ed }

theorem processBatch_results_good (env : PipelineEnv) (user : String) :
    ∀ (ids : List String) (st : Store), (∀ p ∈ st.results, goodRecord p.2) →
      ∀ p ∈ (processBatch env user st ids).2.results, goodRecord p.2 := by
  intro ids
  induction ids with
  | nil => intro st h; simpa [processBatch] using h
  | cons i rest ih =>
      intro st h
      have hst : (processBatch env user st (i :: rest)).2 =
          (processBatch env user (match (processOneMessage env user i).2 with
            | some ed => { st with results := aupsert st.results (user, i) ed }
            | none => st) rest).2 := rfl
      rw [hst]
      rcases processOneMessage_shape env user i with ⟨_, h2⟩ | ⟨_, h2⟩ | ⟨ed, heq, hgood⟩
      · rw [h2]; exact ih st h
      · rw [h2]; exact ih st h
      · have h2 : (processOneMessage env user i).2 = some ed := by rw [heq]
        rw [h2]
        exact ih _ (aupsert_forall goodRecord st.results (user, i) ed h hgood)

theorem sseEmails_processBatch_good (env : PipelineEnv) (user : String)
    (ids : List String) (st : Store) :
    ∀ ed ∈ sseEmails (processBatch env user st ids).1, goodRecord ed := by
  intro ed hed
  rw [processBatch_trace env user ids st] at hed
  simp only [sseEmails] at hed
  rw [List.filterMap_flatMap] at hed
  rcases List.mem_flatMap.mp hed with ⟨i, hi, hmem⟩
  exact sseEmails_processOneMessage_good env user i ed hmem

theorem processBatch_failure_logged (env : PipelineEnv) (user : String)
    (ids : List String) (st : Store) (i : String) (hi : i ∈ ids)
    (hfail : (processOneMessage env user i).2 = none) :
    Ev.log "message-error" ∈ (processBatch env user st ids).1 := by
  rw [processBatch_trace env user ids st]
  exact List.mem_flatMap.mpr ⟨i, hi, processOneMessage_failure_log env user i hfail⟩

theorem responsesOf_processGmailNotification (env : PipelineEnv) (st : Store)
    (user : String) (hid : Nat) (tok : String) :
    responsesOf (processGmailNotification env st user hid tok).1 = [] := by
  unfold processGmailNotification
  cases hg : env.gmailClient tok with
  | none => simp [hg, responsesOf]
  | some u =>
      cases hl : env.listMessages ((alookup st.cursors user).getD hid) with
      | none => simp [hg, hl, responsesOf]
      | some ids =>
          cases ids with
          | nil => simp [hg, hl, responsesOf]
          | cons i rest =>
              obtain ⟨_, r, _, _⟩ := processBatch_proj env user (i :: rest) st
              simp only [responsesOf] at r
              simp [hg, hl, responsesOf_append, responsesOf]
              intro a ha
              exact List.filterMap_eq_nil_iff.mp r a ha

/-- C1: a request whose body is not JSON, or whose message lacks a data
field, is answered 400 and triggers no background work: the trace is the
single 400 response — no token lookup, no pipeline call — and the stores
are unchanged. -/
theorem webhook_malformed_payload_rejected (env : PipelineEnv) (st : Store)
    (body : Option ReqBody)
    (h : body = none ∨ ∃ b, body = some b ∧
        (b.message = none ∨ ∃ m, b.message = some m ∧ m.data = none)) :
    receiveWebhook env st body = ([Ev.respond 400], st) := by
  rcases h with h | ⟨b, hb, h⟩
  · rw [h]; rfl
  · obtain ⟨bm⟩ := b
    rcases h with h | ⟨m, hm, hd⟩
    · simp only at h
      rw [hb, h]
      rfl
    · obtain ⟨md⟩ := m
      simp only at hm hd
      rw [hb, hm, hd]
      rfl

/-- C1 witness: a body whose message lacks the data field gets exactly the
400 response on the sample store. -/
theorem webhook_malformed_payload_rejected_witness :
    receiveWebhook sampleEnv sampleStore (some ⟨some ⟨none⟩⟩) =
      ([Ev.respond 400], sampleStore) :=
  webhook_malformed_payload_rejected sampleEnv sampleStore (some ⟨some ⟨none⟩⟩)
    (Or.inr ⟨⟨some ⟨none⟩⟩, rfl, Or.inr ⟨⟨none⟩, rfl, rfl⟩⟩)

/-- C2: for a well-formed payload the 200 acknowledgment is the first
observable event of the run and the only response sent, for every
environment and store, so the acknowledgment precedes the token lookup and
all pipeline work and is independent of the background outcome. -/
theorem webhook_ack_precedes_background (env : PipelineEnv) (st : Store)
    (b : ReqBody) (msg : PubSubMessage) (nd : NotifData)
    (h1 : b.message = some msg) (h2 : msg.data = some (some nd)) :
    ∃ tl, (receiveWebhook env st (some b)).1 = Ev.respond 200 :: tl ∧
      responsesOf tl = [] := by
  obtain ⟨bm⟩ := b
  obtain ⟨md⟩ := msg
  simp only at h1 h2
  subst h1; subst h2
  simp only [receiveWebhook, handlePubSubWebhook]
  cases ht : jsStr ((alookup st.tokens nd.emailAddress).bind TokenData.access_token) with
  | none => exact ⟨_, rfl, by simp [responsesOf]⟩
  | some tok =>
      refine ⟨_, rfl, ?_⟩
      have hr := responsesOf_processGmailNotification env st nd.emailAddress nd.historyId tok
      simp [responsesOf, hr]
      intro a ha
      simp only [responsesOf] at hr
      exact List.filterMap_eq_nil_iff.mp hr a ha

/-- C2 witness: on the sample environment and store, the run for a valid
payload opens with the 200 acknowledgment and sends no other response. -/
theorem webhook_ack_precedes_background_witness :
    ∃ tl, (receiveWebhook sampleEnv sampleStore
        (some ⟨some ⟨some (some ⟨"user@example.com", 7⟩)⟩⟩)).1 =
      Ev.respond 200 :: tl ∧ responsesOf tl = [] :=
  webhook_ack_precedes_background sampleEnv sampleStore
    ⟨some ⟨some (some ⟨"user@example.com", 7⟩)⟩⟩ ⟨some (some ⟨"user@example.com", 7⟩)⟩
    ⟨"user@example.com", 7⟩ rfl rfl

/-- C3: whenever the message-id fetch succeeds — empty batch, full success
or partial failure alike — the cursor stored for the user after the batch
is the notification historyId, and it is the only cursor write of the run;
in particular it is never the historyId of any processed message, and a
failed message does not hold the cursor back. -/
theorem cursor_advances_to_notification (env : PipelineEnv) (st : Store)
    (user : String) (notifHid : Nat) (tok : String) (ids : List String)
    (hclient : env.gmailClient tok = some ())
    (hlist : env.listMessages ((alookup st.cursors user).getD notifHid) = some ids) :
    alookup (processGmailNotification env st user notifHid tok).2.cursors user =
      some notifHid ∧
    cursorStores (processGmailNotification env st user notifHid tok).1 =
      [(user, notifHid)] := by
  unfold processGmailNotification
  cases ids with
  | nil =>
      constructor
      · simp [hclient, hlist, alookup_aupsert_self]
      · simp [hclient, hlist, cursorStores, List.filterMap_cons]
  | cons i rest =>
      obtain ⟨_, _, c, _⟩ := processBatch_proj env user (i :: rest) st
      constructor
      · simp [hclient, hlist, alookup_aupsert_self]
      · simp only [hclient, hlist]
        simp only [cursorStores, List.filterMap_cons, List.filterMap_append]
        simp only [cursorStores] at c
        simp [c]

/-- C3 witness: on the sample environment (message m1 fails, m2 succeeds)
the stored cursor after the run is the notification historyId 7, the only
cursor write of the run. -/
theorem cursor_advances_to_notification_witness :
    alookup (processGmailNotification sampleEnv sampleStore
        "user@example.com" 7 "tok123").2.cursors "user@example.com" = some 7 ∧
    cursorStores (processGmailNotification sampleEnv sampleStore
        "user@example.com" 7 "tok123").1 = [("user@example.com", 7)] :=
  cursor_advances_to_notification sampleEnv sampleStore "user@example.com" 7 "tok123"
    ["m1", "m2"] rfl (by decide)

/-- C4: every message of a batch is attempted — the fetch attempts are
exactly the batch ids in order, whatever each message's outcome — and a
message whose processing throws at any stage is caught and logged while the
rest of the batch still runs. -/
theorem per_message_failure_isolated (env : PipelineEnv) (user : String)
    (st : Store) (ids : List String) :
    fetchedIds (processBatch env user st ids).1 = ids ∧
    (∀ i ∈ ids, (processOneMessage env user i).2 = none →
      Ev.log "message-error" ∈ (processBatch env user st ids).1) := by
  refine ⟨(processBatch_proj env user ids st).1, ?_⟩
  intro i hi hfail
  exact processBatch_failure_logged env user ids st i hi hfail

/-- C4 witness: in the sample environment message m1 throws on fetch; its
failure is logged and m2 is still fetched afterwards. -/
theorem per_message_failure_isolated_witness :
    fetchedIds (processBatch sampleEnv "user@example.com" emptyStore ["m1", "m2"]).1 =
      ["m1", "m2"] ∧
    Ev.log "message-error" ∈
      (processBatch sampleEnv "user@example.com" emptyStore ["m1", "m2"]).1 :=
  ⟨(per_message_failure_isolated sampleEnv "user@example.com" emptyStore ["m1", "m2"]).1,
    (per_message_failure_isolated sampleEnv "user@example.com" emptyStore ["m1", "m2"]).2
      "m1" (by decide) (by decide)⟩

/-- C5: a well-formed notification for a user with no stored access token
is acknowledged with 200, the missing credential is logged, and the handler
returns without calling the pipeline: the trace ends at the log and the
stores are unchanged. -/
theorem missing_token_drops_notification (env : PipelineEnv) (st : Store)
    (b : ReqBody) (msg : PubSubMessage) (nd : NotifData)
    (h1 : b.message = some msg) (h2 : msg.data = some (some nd))
    (h3 : jsStr ((alookup st.tokens nd.emailAddress).bind TokenData.access_token) = none) :
    receiveWebhook env st (some b) =
      ([Ev.respond 200, Ev.tokenLookup nd.emailAddress, Ev.log "no-token"], st) := by
  obtain ⟨bm⟩ := b
  obtain ⟨md⟩ := msg
  simp only at h1 h2
  subst h1; subst h2
  simp [receiveWebhook, handlePubSubWebhook, h3]

/-- C5 witness: with an empty token store, a valid notification is dropped
after the acknowledgment and the log, leaving the store unchanged. -/
theorem missing_token_drops_notification_witness :
    receiveWebhook sampleEnv emptyStore
        (some ⟨some ⟨some (some ⟨"user@example.com", 7⟩)⟩⟩) =
      ([Ev.respond 200, Ev.tokenLookup "user@example.com", Ev.log "no-token"],
        emptyStore) :=
  missing_token_drops_notification sampleEnv emptyStore
    ⟨some ⟨some (some ⟨"user@example.com", 7⟩)⟩⟩ ⟨some (some ⟨"user@example.com", 7⟩)⟩
    ⟨"user@example.com", 7⟩ rfl rfl rfl

/-- C7: every classification record the classifier client produces has its
category in the fixed set benign, spam, scam, suspicious; consequently
every record the pipeline persists to the result store (given the store
held only such records) or pushes to the dashboard stream satisfies it, and
the dashboard colour map gives each of these categories a colour distinct
from the unknown default. -/
theorem classification_in_category_set :
    (∀ a b, (resolveClassification a b).result ∈ categorySet) ∧
    (∀ (env : PipelineEnv) (st : Store) (user : String) (hid : Nat) (tok : String),
      (∀ p ∈ st.results, goodRecord p.2) →
      (∀ p ∈ (processGmailNotification env st user hid tok).2.results, goodRecord p.2) ∧
      (∀ ed ∈ sseEmails (processGmailNotification env st user hid tok).1, goodRecord ed)) ∧
    (∀ c : Classification, c.result ∈ categorySet →
      getClassificationColor (some c) ≠ "#6c757d") := by
  refine ⟨resolveClassification_mem, ?_, ?_⟩
  · intro env st user hid tok h
    unfold processGmailNotification
    cases hg : env.gmailClient tok with
    | none =>
        refine ⟨?_, ?_⟩
        · simpa [hg] using h
        · simp [hg, sseEmails]
    | some u =>
        cases hl : env.listMessages ((alookup st.cursors user).getD hid) with
        | none =>
            refine ⟨?_, ?_⟩
            · simpa [hg, hl] using h
            · simp [hg, hl, sseEmails]
        | some ids =>
            cases ids with
            | nil =>
                refine ⟨?_, ?_⟩
                · simpa [hg, hl] using h
                · simp [hg, hl, sseEmails]
            | cons i rest =>
                refine ⟨?_, ?_⟩
                · simp only [hg, hl]
                  intro p hp
                  exact processBatch_results_good env user (i :: rest) st h p
                    (by simpa using hp)
                · simp only [hg, hl]
                  intro ed hed
                  apply sseEmails_processBatch_good env user (i :: rest) st ed
                  simpa [sseEmails, List.filterMap_cons, List.filterMap_append] using hed
  · intro c hc
    simp only [categorySet, List.mem_cons, List.not_mem_nil, or_false] at hc
    rcases hc with h | h | h | h <;> simp only [getClassificationColor, h] <;> decide

/-- C7 witness: the record the sample pipeline run persists for message m2
carries a category in the fixed set. -/
theorem classification_in_category_set_witness : goodRecord pipelineSampleRecord :=
  (classification_in_category_set.2.1 sampleEnv sampleStore "user@example.com" 7 "tok123"
      (by simp [sampleStore])).1
    (("user@example.com", "m2"), pipelineSampleRecord) (by exact List.Mem.head _)

/-- C8: the batch loop handles messages one at a time in exactly the order
the source returned them: the trace is the concatenation of the
per-message traces in source order — so the events of one message are
contiguous, with no interleaving — and the fetch attempts are the ids in
source order. -/
theorem batch_processed_sequentially (env : PipelineEnv) (user : String)
    (st : Store) (ids : List String) :
    (processBatch env user st ids).1 =
      ids.flatMap (fun i => (processOneMessage env user i).1) ∧
    fetchedIds (processBatch env user st ids).1 = ids :=
  ⟨processBatch_trace env user ids st, (processBatch_proj env user ids st).1⟩

/-- C9: with no stored cursor for the user, the pipeline queries the mail
source from the notification historyId itself instead of erroring: the one
query of the run uses the notification historyId as baseline, and exactly
the ids the source returns for that baseline are fetched. -/
theorem missing_cursor_fallback (env : PipelineEnv) (st : Store) (user : String)
    (notifHid : Nat) (tok : String)
    (hcur : alookup st.cursors user = none)
    (hclient : env.gmailClient tok = some ()) :
    queriedBaselines (processGmailNotification env st user notifHid tok).1 =
      [notifHid] ∧
    fetchedIds (processGmailNotification env st user notifHid tok).1 =
      (env.listMessages notifHid).getD [] := by
  unfold processGmailNotification
  cases hl : env.listMessages notifHid with
  | none =>
      constructor <;>
        simp [hclient, hcur, hl, queriedBaselines, fetchedIds, List.filterMap_cons]
  | some ids =>
      cases ids with
      | nil =>
          constructor <;>
            simp [hclient, hcur, hl, queriedBaselines, fetchedIds, List.filterMap_cons]
      | cons i rest =>
          obtain ⟨f, _, _, q⟩ := processBatch_proj env user (i :: rest) st
          constructor
          · simp only [hclient, hcur, Option.getD_none, hl]
            simp only [queriedBaselines, List.filterMap_cons, List.filterMap_append]
            simp only [queriedBaselines] at q
            simp [q]
          · simp only [hclient, hcur, Option.getD_none, hl]
            simp only [fetchedIds, List.filterMap_cons, List.filterMap_append]
            simp only [fetchedIds] at f
            simp [f]

/-- C9 witness: with an empty cursor store the sample run queries from the
notification historyId 3 and fetches exactly the ids the source returns
for 3. -/
theorem missing_cursor_fallback_witness :
    queriedBaselines (processGmailNotification sampleEnv emptyStore
        "user@example.com" 3 "tok123").1 = [3] ∧
    fetchedIds (processGmailNotification sampleEnv emptyStore
        "user@example.com" 3 "tok123").1 =
      (sampleEnv.listMessages 3).getD [] :=
  missing_cursor_fallback sampleEnv emptyStore "user@example.com" 3 "tok123" rfl rfl
